import Mathlib

/-!
Shallow embedding of the Magisk `build.py` build orchestration script.

Python sets are modelled as `Finset String`, byte strings as `List (Fin 256)`,
file contents as `String`, and a filesystem as an association list from path
strings to files.  Each definition mirrors the corresponding Python function;
measurement helpers used only to state properties (line splitting, hex
scanning) are marked as such in their doc comments.
-/

namespace Build

/-- `archs` from build.py: the four target CPU/ABI identifiers. -/
def archs : List String := ["armeabi-v7a", "x86", "arm64-v8a", "x86_64"]

/-- `triples` from build.py: the compilation triples, parallel to `archs`. -/
def triples : List String :=
  ["armv7a-linux-androideabi", "i686-linux-android",
   "aarch64-linux-android", "x86_64-linux-android"]

/-- `default_targets` from build.py. -/
def default_targets : List String :=
  ["magisk", "magiskinit", "magiskboot", "magiskpolicy", "busybox"]

/-- `support_targets = default_targets + ["resetprop"]` from build.py. -/
def support_targets : List String := default_targets ++ ["resetprop"]

/-- `rust_targets` from build.py: targets built by the cargo family. -/
def rust_targets : List String :=
  ["magisk", "magiskinit", "magiskboot", "magiskpolicy"]

/-- The target-selection step at the top of `build_binary` (build.py
lines 363-371): a non-empty request is intersected with
`support_targets` and an empty intersection makes the whole command
return early (`none`); an empty request resolves to `default_targets`. -/
def binary_select (requested : Finset String) : Option (Finset String) :=
  if requested ≠ ∅ then
    let t := requested ∩ support_targets.toFinset
    if t = ∅ then none else some t
  else
    some default_targets.toFinset

/-- The target set actually passed to cargo in `run_cargo_build`
(build.py lines 258-260): `set(args.target) & set(rust_targets)`,
plus `"magisk"` whenever `"resetprop"` was requested. -/
def cargo_targets (resolved : Finset String) : Finset String :=
  let targets := resolved ∩ rust_targets.toFinset
  if "resetprop" ∈ resolved then insert "magisk" targets else targets

/-- All targets processed by one `build_binary` invocation: every resolved
target is driven through an ndk-build feature flag, and the cargo family
additionally builds `cargo_targets resolved`. -/
def built_targets (resolved : Finset String) : Finset String :=
  resolved ∪ cargo_targets resolved

/-- **C1**  Binary-build target selection: an empty request resolves to exactly
the canonical default set; a non-empty request resolves to its intersection
with the supported catalog, an empty intersection meaning "nothing to build"
(`none`, not an error); every resolved set is a subset of the catalog. -/
theorem binary_select_spec (requested : Finset String) :
    (requested = ∅ → binary_select requested = some default_targets.toFinset) ∧
    (requested ≠ ∅ →
      (requested ∩ support_targets.toFinset ≠ ∅ →
        binary_select requested = some (requested ∩ support_targets.toFinset)) ∧
      (requested ∩ support_targets.toFinset = ∅ →
        binary_select requested = none)) ∧
    (∀ r, binary_select requested = some r → r ⊆ support_targets.toFinset) := by
  refine ⟨?_, ?_, ?_⟩
  · intro h
    simp [binary_select, h]
  · intro h
    constructor
    · intro hne
      simp [binary_select, h, hne]
    · intro he
      simp [binary_select, h, he]
  · intro r hr
    unfold binary_select at hr
    by_cases h : requested = ∅
    · simp [h] at hr
      subst hr
      intro x hx
      simp [default_targets, support_targets] at hx ⊢
      tauto
    · simp [h] at hr
      rcases hr with ⟨_, hr⟩
      subst hr
      exact Finset.inter_subset_right

/-- Witness for `binary_select_spec` at the concrete request
`{"resetprop", "bogus"}`. -/
theorem binary_select_spec_witness :
    binary_select {"resetprop", "bogus"} = some {"resetprop"} ∧
    ({"resetprop"} : Finset String) ⊆ support_targets.toFinset := by
  have h := binary_select_spec {"resetprop", "bogus"}
  have h1 : binary_select {"resetprop", "bogus"} =
      some ({"resetprop", "bogus"} ∩ support_targets.toFinset) := by
    refine (h.2.1 (by decide)).1 (by decide)
  have h2 : ({"resetprop", "bogus"} : Finset String) ∩ support_targets.toFinset
      = {"resetprop"} := by decide
  refine ⟨h2 ▸ h1, h.2.2 {"resetprop"} (by rw [h1, h2])⟩

/-- **C2**  Whenever the resolved target set contains the derived target
`resetprop`, the set of targets actually built contains its base target
`magisk`; selecting `resetprop` alone resolves to `{"resetprop"}` and the
built set then contains both `resetprop` and `magisk` (the cargo pass is
handed `magisk` before any build step proceeds). -/
theorem resetprop_pulls_in_magisk (resolved : Finset String)
    (h : "resetprop" ∈ resolved) :
    "magisk" ∈ cargo_targets resolved ∧
    "magisk" ∈ built_targets resolved ∧
    (binary_select {"resetprop"} = some {"resetprop"} ∧
      "resetprop" ∈ built_targets {"resetprop"} ∧
      "magisk" ∈ built_targets {"resetprop"}) := by
  refine ⟨?_, ?_, by decide, by decide, by decide⟩
  · simp [cargo_targets, h]
  · have : "magisk" ∈ cargo_targets resolved := by simp [cargo_targets, h]
    simp [built_targets, this]

/-- Witness for `resetprop_pulls_in_magisk` at `{"resetprop"}`. -/
theorem resetprop_pulls_in_magisk_witness :
    "magisk" ∈ cargo_targets {"resetprop"} ∧
    "magisk" ∈ built_targets {"resetprop"} := by
  have h := resetprop_pulls_in_magisk {"resetprop"} (by decide)
  exact ⟨h.1, h.2.1⟩

/-- The clean-scope catalog hard-coded inside `cleanup` (build.py line 499). -/
def clean_scopes : Finset String := {"native", "cpp", "rust", "java"}

/-- The scope-resolution step of `cleanup` (build.py lines 498-506): an empty
request resolves to the full scope catalog; otherwise the request is
intersected with the catalog and, when `"native"` survives, `"cpp"` and
`"rust"` are added. -/
def cleanup_resolve (requested : Finset String) : Finset String :=
  if requested ≠ ∅ then
    let t := requested ∩ clean_scopes
    if "native" ∈ t then insert "cpp" (insert "rust" t) else t
  else
    clean_scopes

/-- **C10**  Cleanup scope resolution: an empty request resolves to the full
scope set `{native, cpp, rust, java}`; any requested name outside that set is
silently dropped (never part of the resolved set, and no error is signalled);
and a request containing `"native"` always resolves to a set containing both
`"cpp"` and `"rust"`. -/
theorem cleanup_resolve_spec (requested : Finset String) :
    (requested = ∅ →
      cleanup_resolve requested = ({"native", "cpp", "rust", "java"} : Finset String)) ∧
    cleanup_resolve requested ⊆ clean_scopes ∧
    (∀ x ∈ requested, x ∉ clean_scopes → x ∉ cleanup_resolve requested) ∧
    ("native" ∈ requested →
      "cpp" ∈ cleanup_resolve requested ∧ "rust" ∈ cleanup_resolve requested) := by
  have hsub : cleanup_resolve requested ⊆ clean_scopes := by
    unfold cleanup_resolve
    by_cases h : requested = ∅
    · simp [h]
    · simp only [h, ne_eq, not_false_iff, if_true]
      by_cases hn : "native" ∈ requested ∩ clean_scopes
      · simp only [hn, if_true]
        intro x hx
        simp only [Finset.mem_insert] at hx
        rcases hx with rfl | rfl | hx
        · decide
        · decide
        · exact (Finset.mem_inter.mp hx).2
      · simp only [hn, if_neg, ite_false]
        exact Finset.inter_subset_right
  refine ⟨?_, hsub, ?_, ?_⟩
  · intro h
    simp [cleanup_resolve, h, clean_scopes]
  · intro x _ hx hmem
    exact hx (hsub hmem)
  · intro h
    have hn : "native" ∈ requested ∩ clean_scopes := by
      refine Finset.mem_inter.mpr ⟨h, by decide⟩
    have hne : requested ≠ ∅ := by
      intro he
      rw [he] at h
      simp at h
    constructor
    · simp [cleanup_resolve, hne, hn]
    · simp [cleanup_resolve, hne, hn]

/-- Witness for `cleanup_resolve_spec` at the request `{"native", "junk"}`. -/
theorem cleanup_resolve_spec_witness :
    cleanup_resolve ∅ = ({"native", "cpp", "rust", "java"} : Finset String) ∧
    "junk" ∉ cleanup_resolve {"native", "junk"} ∧
    "cpp" ∈ cleanup_resolve {"native", "junk"} ∧
    "rust" ∈ cleanup_resolve {"native", "junk"} := by
  have h0 := cleanup_resolve_spec (∅ : Finset String)
  have h1 := cleanup_resolve_spec {"native", "junk"}
  exact ⟨h0.1 rfl, h1.2.2.1 "junk" (by decide) (by decide),
    (h1.2.2.2 (by decide)).1, (h1.2.2.2 (by decide)).2⟩

/-- `write_if_diff` (build.py lines 307-315) on an explicit file-content
state: `none` means the file does not exist.  Returns the new content of
the file and whether a write was performed. -/
def write_if_diff (file : Option String) (text : String) : Option String × Bool :=
  let do_write : Bool := match file with
    | some orig => orig != text
    | none => true
  if do_write then (some text, true) else (file, false)

/-- **C4**  `write_if_diff` is an idempotent write: if the file exists with
byte-identical content nothing is written and the file is untouched,
otherwise exactly the new text is written; consequently a second call with
the same text never writes. -/
theorem write_if_diff_spec (file : Option String) (text : String) :
    (file = some text → write_if_diff file text = (file, false)) ∧
    (file ≠ some text →
      write_if_diff file text = (some text, true)) ∧
    write_if_diff (write_if_diff file text).1 text = (some text, false) := by
  refine ⟨?_, ?_, ?_⟩
  · intro h
    subst h
    simp [write_if_diff]
  · intro h
    match file with
    | none => simp [write_if_diff]
    | some orig =>
      have : orig ≠ text := fun he => h (by rw [he])
      simp [write_if_diff, this]
  · by_cases h : file = some text
    · subst h
      simp [write_if_diff]
    · match file with
      | none => simp [write_if_diff]
      | some orig =>
        have : orig ≠ text := fun he => h (by rw [he])
        simp [write_if_diff, this]

/-- Witness for `write_if_diff_spec` at a concrete file state and text. -/
theorem write_if_diff_spec_witness :
    write_if_diff (some "old") "new" = (some "new", true) ∧
    write_if_diff (some "new") "new" = (some "new", false) := by
  have h1 := write_if_diff_spec (some "old") "new"
  have h2 := write_if_diff_spec (some "new") "new"
  exact ⟨h1.2.1 (by decide), h2.1 rfl⟩

/-- Leading run of spaces and tabs of a line (used by `dedent`). -/
def leadingWs (s : List Char) : List Char :=
  s.takeWhile (fun c => c == ' ' || c == '\t')

/-- Longest common prefix of two character lists (used by `dedent`). -/
def commonPre : List Char → List Char → List Char
  | a :: as, b :: bs => if a = b then a :: commonPre as bs else []
  | _, _ => []

/-- Split a character list on newline characters (used by `dedent`). -/
def splitNl : List Char → List (List Char)
  | [] => [[]]
  | c :: rest =>
    if c = '\n' then [] :: splitNl rest
    else
      match splitNl rest with
      | l :: ls => (c :: l) :: ls
      | [] => [[c]]

/-- Rejoin lines with newline characters (used by `dedent`). -/
def joinNl : List (List Char) → List Char
  | [] => []
  | [l] => l
  | l :: ls => l ++ '\n' :: joinNl ls

/-- A line consisting only of spaces and tabs, or empty (ignored when
`dedent` determines the margin). -/
def blankLine (l : List Char) : Bool :=
  l.all (fun c => c == ' ' || c == '\t')

/-- Model of Python `textwrap.dedent`: the margin is the longest common
leading whitespace of all lines that are not whitespace-only, and it is
removed from every line that starts with it. -/
def dedent (text : String) : String :=
  let lines := splitNl text.data
  let margin := match (lines.filter (fun l => !blankLine l)).map leadingWs with
    | [] => []
    | m :: ms => ms.foldl commonPre m
  String.mk (joinNl (lines.map (fun l =>
    if margin.isPrefixOf l then l.drop margin.length else l)))

/-- The indented triple-quoted literal passed to `textwrap.dedent` in
`dump_flag_header` (build.py lines 339-345), including the 8-space
indentation and the whitespace-only final line before the closing quotes. -/
def flag_header_literal : String :=
  "        #pragma once\n" ++
  "        #define quote(s)            #s\n" ++
  "        #define str(s)              quote(s)\n" ++
  "        #define MAGISK_FULL_VER     MAGISK_VERSION \"(\" str(MAGISK_VER_CODE) \")\"\n" ++
  "        #define NAME_WITH_VER(name) str(name) \" \" MAGISK_FULL_VER\n" ++
  "        "

/-- `dump_flag_header` (build.py lines 337-352) as a function of the resolved
configuration (`version`, `versionCode`) and the profile (`release`): the
dedented template followed by the three `+=` f-string lines.  The generated
text depends on nothing else. -/
def dump_flag_header (version : String) (versionCode : Int) (release : Bool) : String :=
  dedent flag_header_literal ++
  ("#define MAGISK_VERSION      \"" ++ version ++ "\"\n") ++
  ("#define MAGISK_VER_CODE     " ++ toString versionCode ++ "\n") ++
  ("#define MAGISK_DEBUG        " ++ toString (if release then (0 : Nat) else 1) ++ "\n")

set_option maxRecDepth 100000 in
/-- **C7**  The flag header is exactly the fixed five-line template followed
by the three computed lines: the version string, the numeric version code,
and `MAGISK_DEBUG` defined as `0` on the release profile and `1` on the
debug profile; no other input appears in the generated content. -/
theorem dump_flag_header_spec (v : String) (c : Int) (r : Bool) :
    dump_flag_header v c r =
      ("#pragma once\n" ++
       "#define quote(s)            #s\n" ++
       "#define str(s)              quote(s)\n" ++
       "#define MAGISK_FULL_VER     MAGISK_VERSION \"(\" str(MAGISK_VER_CODE) \")\"\n" ++
       "#define NAME_WITH_VER(name) str(name) \" \" MAGISK_FULL_VER\n") ++
      ("#define MAGISK_VERSION      \"" ++ v ++ "\"\n") ++
      ("#define MAGISK_VER_CODE     " ++ toString c ++ "\n") ++
      ("#define MAGISK_DEBUG        " ++ (if r then "0" else "1") ++ "\n") := by
  have htempl : dedent flag_header_literal =
      "#pragma once\n" ++
      "#define quote(s)            #s\n" ++
      "#define str(s)              quote(s)\n" ++
      "#define MAGISK_FULL_VER     MAGISK_VERSION \"(\" str(MAGISK_VER_CODE) \")\"\n" ++
      "#define NAME_WITH_VER(name) str(name) \" \" MAGISK_FULL_VER\n" := by
    decide
  unfold dump_flag_header
  rw [htempl]
  cases r <;> rfl

/-- Observable steps of one `build_binary` invocation: a cargo build of a
target set, generation of the flag header (recording the `MAGISK_DEBUG`
value), an ndk-build invocation with a feature-flag string, generation of
one architecture's binary payload header, and the ELF post-processor. -/
inductive Event where
  | cargoBuild (targets : Finset String)
  | flagHeader (debug : Nat)
  | ndkBuild (flags : String)
  | binHeader (arch : String)
  | cleanElf
  deriving DecidableEq

/-- The sequence of steps `build_binary` performs on an already-resolved
target set (build.py lines 373-421): the cargo pass (`run_cargo_build`
returns without building when its target set is empty), `dump_flag_header`,
the first ndk-build pass with the per-target flags, `dump_bin_header` for
all architectures when `magiskinit` is selected, the second ndk-build pass
with `B_CRT0=1` appended, `clean_elf` when `magisk` or `magiskpolicy` was
selected, and the BusyBox pass. -/
def build_binary_events (t : Finset String) (release : Bool) : List Event :=
  (if cargo_targets t = ∅ then [] else [Event.cargoBuild (cargo_targets t)]) ++
  [Event.flagHeader (if release then 0 else 1)] ++
  (let flag1 :=
      (if "magisk" ∈ t then " B_MAGISK=1" else "") ++
      (if "magiskpolicy" ∈ t then " B_POLICY=1" else "") ++
      (if "magiskinit" ∈ t then " B_PRELOAD=1" else "") ++
      (if "resetprop" ∈ t then " B_PROP=1" else "")
   if flag1 ≠ "" then [Event.ndkBuild flag1] else []) ++
  (if "magiskinit" ∈ t then archs.map Event.binHeader else []) ++
  (let flag2 :=
      (if "magiskinit" ∈ t then " B_INIT=1" else "") ++
      (if "magiskboot" ∈ t then " B_BOOT=1" else "")
   if flag2 ≠ "" then [Event.ndkBuild (flag2 ++ " B_CRT0=1")] else []) ++
  (if "magisk" ∈ t ∨ "magiskpolicy" ∈ t then [Event.cleanElf] else []) ++
  (if "busybox" ∈ t then [Event.ndkBuild "B_BB=1"] else [])

/-- A full `build_binary` invocation: target selection followed by the
build steps; `binary_select` returning `none` means nothing runs. -/
def build_binary_trace (requested : Finset String) (release : Bool) : List Event :=
  match binary_select requested with
  | none => []
  | some t => build_binary_events t release

/-- The step sequence asserted by the spec's end-to-end scenario for
`{"magiskinit"}` on a release profile, in the spec's order: cargo build,
ndk-build preload pass, flag header, the four payload headers, ndk-build
embedding pass.  (Stated from the spec, to be compared with the code.) -/
def claimed_magiskinit_release_trace : List Event :=
  [Event.cargoBuild {"magiskinit"},
   Event.ndkBuild " B_PRELOAD=1",
   Event.flagHeader 0] ++
  archs.map Event.binHeader ++
  [Event.ndkBuild " B_INIT=1 B_CRT0=1"]

/-- **C3 counterexample**  The pipeline on `{"magiskinit"}`/release does NOT
perform its steps in the order the claim states: in the code
`dump_flag_header` runs before the first ndk-build pass, not after it. -/
theorem build_binary_magiskinit_claim_false :
    build_binary_trace {"magiskinit"} true ≠ claimed_magiskinit_release_trace := by
  decide

/-- **C3 (amended)**  On `{"magiskinit"}`/release the pipeline performs, in
order: the cargo build of `magiskinit`, generation of the flag header with
`MAGISK_DEBUG` = 0, the ndk-build pass with only `B_PRELOAD=1` active,
generation of the payload headers for all 4 architectures, and the
ndk-build embedding pass with `B_INIT=1` active (plus the always-appended
`B_CRT0=1`); every payload header is generated before the embedding pass,
and `clean_elf` is never invoked. -/
theorem build_binary_magiskinit_trace :
    build_binary_trace {"magiskinit"} true =
      [Event.cargoBuild {"magiskinit"},
       Event.flagHeader 0,
       Event.ndkBuild " B_PRELOAD=1",
       Event.binHeader "armeabi-v7a", Event.binHeader "x86",
       Event.binHeader "arm64-v8a", Event.binHeader "x86_64",
       Event.ndkBuild " B_INIT=1 B_CRT0=1"] ∧
    (∀ a ∈ archs,
      (build_binary_trace {"magiskinit"} true).indexOf (Event.binHeader a) <
      (build_binary_trace {"magiskinit"} true).indexOf
        (Event.ndkBuild " B_INIT=1 B_CRT0=1")) ∧
    Event.cleanElf ∉ build_binary_trace {"magiskinit"} true := by
  decide

/-- Python `bytes` values: sequences of bytes. -/
abbrev ByteStr := List (Fin 256)

/-- The uppercase hexadecimal digit character for a value below 16, as
produced by Python's `X` format spec. -/
def hexDigit (n : Nat) : Char :=
  if n < 10 then Char.ofNat ('0'.toNat + n) else Char.ofNat ('A'.toNat + (n - 10))

/-- The loop body of `binary_dump` renders one byte as Python's
`f"0x{c:02X},"`: `0x`, two uppercase hexadecimal digits, a comma. -/
def byte_hex (c : Fin 256) : String :=
  "0x" ++ String.mk [hexDigit (c.val / 16), hexDigit (c.val % 16)] ++ ","

/-- The `for i, c in enumerate(...)` loop of `binary_dump` (build.py lines
320-323): a newline before every byte whose index is a multiple of 16,
then the hexadecimal literal. -/
def dump_body : Nat → ByteStr → String
  | _, [] => ""
  | i, c :: rest =>
    (if i % 16 = 0 then "\n" else "") ++ byte_hex c ++ dump_body (i + 1) rest

/-- `binary_dump` (build.py lines 318-325): the `constexpr` array header for
`var_name`, the compressed bytes rendered by the enumerate loop, and the
closing `\n};\n`.  `compressor` is applied to the raw input bytes exactly as
`compressor(src.read())`. -/
def binary_dump (compressor : ByteStr → ByteStr) (src : ByteStr)
    (var_name : String) : String :=
  "constexpr unsigned char " ++ var_name ++ "[] = \x7b" ++
    dump_body 0 (compressor src) ++ "\n\x7d;\n"

/-- `xz` (build.py lines 154-155): `lzma.compress(data, preset=9,
check=lzma.CHECK_NONE)`.  The external LZMA library is the parameter
`lzma_compress`, taking the preset, the check constant (`CHECK_NONE = 0`)
and the data. -/
def xz (lzma_compress : Nat → Nat → ByteStr → ByteStr) (data : ByteStr) : ByteStr :=
  lzma_compress 9 0 data

/-- `dump_bin_header` (build.py lines 328-334) as the list of
(file name, file content) writes it performs: for each architecture, the
file `<arch>_binaries.h` holding `binary_dump` of that architecture's
`libinit-ld.so` bytes (given by `preload`) under the symbol `init_ld_xz`,
with the default compressor `xz`. -/
def dump_bin_header (lzma_compress : Nat → Nat → ByteStr → ByteStr)
    (preload : String → ByteStr) : List (String × String) :=
  archs.map (fun arch =>
    (arch ++ "_binaries.h",
      binary_dump (xz lzma_compress) (preload arch) "init_ld_xz"))

/-- Measurement helper: numeric value of an uppercase hexadecimal digit. -/
def hexVal (c : Char) : Nat :=
  if '0' ≤ c ∧ c ≤ '9' then c.toNat - '0'.toNat
  else if 'A' ≤ c ∧ c ≤ 'F' then c.toNat - 'A'.toNat + 10
  else 0

/-- Measurement helper: recover the byte values spelled as `0x..`
hexadecimal literals anywhere in a character stream.  Used only to state
what byte array a generated header embeds. -/
def scanB : List Char → List Nat
  | '0' :: 'x' :: h :: l :: rest => (16 * hexVal h + hexVal l) :: scanB rest
  | _ :: rest => scanB rest
  | [] => []

theorem hexVal_hexDigit : ∀ n : Fin 16, hexVal (hexDigit n.val) = n.val := by
  decide

theorem string_data_append (a b : String) : (a ++ b).data = a.data ++ b.data :=
  String.data_append a b

theorem scanB_byte (c : Fin 256) (t : List Char) :
    scanB ((byte_hex c).data ++ t) = c.val :: scanB t := by
  have hdiv : c.val / 16 < 16 := by omega
  have hmod : c.val % 16 < 16 := Nat.mod_lt _ (by omega)
  have h1 : hexVal (hexDigit (c.val / 16)) = c.val / 16 := hexVal_hexDigit ⟨_, hdiv⟩
  have h2 : hexVal (hexDigit (c.val % 16)) = c.val % 16 := hexVal_hexDigit ⟨_, hmod⟩
  have hstep : scanB ((byte_hex c).data ++ t) =
      (16 * hexVal (hexDigit (c.val / 16)) + hexVal (hexDigit (c.val % 16)))
        :: scanB t := rfl
  rw [hstep, h1, h2, Nat.div_add_mod]

theorem scanB_dump_body (bs : ByteStr) :
    ∀ (i : Nat) (t : List Char),
      scanB ((dump_body i bs).data ++ t) = bs.map Fin.val ++ scanB t := by
  induction bs with
  | nil => intro i t; rfl
  | cons c g ih =>
    intro i t
    show scanB (((if i % 16 = 0 then "\n" else "") ++ byte_hex c ++
        dump_body (i + 1) g).data ++ t) = _
    by_cases hi : i % 16 = 0
    · rw [if_pos hi]
      have : (("\n" ++ byte_hex c ++ dump_body (i + 1) g).data ++ t) =
          '\n' :: ((byte_hex c).data ++ ((dump_body (i + 1) g).data ++ t)) := by
        simp [string_data_append]
      rw [this]
      have hnl : scanB ('\n' :: ((byte_hex c).data ++
          ((dump_body (i + 1) g).data ++ t))) =
          scanB ((byte_hex c).data ++ ((dump_body (i + 1) g).data ++ t)) := rfl
      rw [hnl, scanB_byte, ih]
      rfl
    · rw [if_neg hi]
      have : (("" ++ byte_hex c ++ dump_body (i + 1) g).data ++ t) =
          (byte_hex c).data ++ ((dump_body (i + 1) g).data ++ t) := by
        simp [string_data_append]
      rw [this, scanB_byte, ih]
      rfl

theorem scanB_binary_dump (compressor : ByteStr → ByteStr) (src : ByteStr) :
    scanB (binary_dump compressor src "init_ld_xz").data =
      (compressor src).map Fin.val := by
  show scanB (("constexpr unsigned char " ++ "init_ld_xz" ++ "[] = \x7b" ++
      dump_body 0 (compressor src) ++ "\n\x7d;\n").data) = _
  have : ("constexpr unsigned char " ++ "init_ld_xz" ++ "[] = \x7b" ++
      dump_body 0 (compressor src) ++ "\n\x7d;\n").data =
      ("constexpr unsigned char init_ld_xz[] = \x7b").data ++
        ((dump_body 0 (compressor src)).data ++ ("\n\x7d;\n").data) := by
    simp [string_data_append]
  rw [this]
  have hpre : ∀ t, scanB (("constexpr unsigned char init_ld_xz[] = \x7b").data ++ t)
      = scanB t := fun t => rfl
  rw [hpre, scanB_dump_body]
  have hsuf : scanB ("\n\x7d;\n").data = [] := rfl
  rw [hsuf, List.append_nil]

/-- **C5**  `xz` is `lzma.compress` at preset 9 with `CHECK_NONE`; whenever
the LZMA decompressor inverts that compression, decompressing `xz b` yields
`b` exactly, and the byte array emitted into each architecture's generated
payload header (recovered from its hexadecimal literals) decompresses to
that architecture's original shared-object bytes. -/
theorem xz_payload_roundtrip (lzma_compress : Nat → Nat → ByteStr → ByteStr)
    (lzma_decompress : ByteStr → ByteStr)
    (hlzma : ∀ b, lzma_decompress (lzma_compress 9 0 b) = b)
    (preload : String → ByteStr) :
    (∀ b, xz lzma_compress b = lzma_compress 9 0 b) ∧
    (∀ b, lzma_decompress (xz lzma_compress b) = b) ∧
    (∀ arch ∈ archs,
      (arch ++ "_binaries.h",
          binary_dump (xz lzma_compress) (preload arch) "init_ld_xz")
        ∈ dump_bin_header lzma_compress preload ∧
      scanB (binary_dump (xz lzma_compress) (preload arch) "init_ld_xz").data
        = (xz lzma_compress (preload arch)).map Fin.val ∧
      lzma_decompress (xz lzma_compress (preload arch)) = preload arch) := by
  refine ⟨fun b => rfl, fun b => hlzma b, ?_⟩
  intro arch harch
  refine ⟨?_, scanB_binary_dump _ _, hlzma _⟩
  exact List.mem_map.mpr ⟨arch, harch, rfl⟩

/-- Witness for `xz_payload_roundtrip`: the identity as the LZMA pair and a
one-byte shared object. -/
theorem xz_payload_roundtrip_witness :
    scanB (binary_dump (xz (fun _ _ b => b)) [(65 : Fin 256)] "init_ld_xz").data
      = [65] ∧
    (fun (b : ByteStr) => b) (xz (fun _ _ b => b) [(65 : Fin 256)])
      = [(65 : Fin 256)] := by
  have h := xz_payload_roundtrip (fun _ _ b => b) (fun b => b)
    (fun b => rfl) (fun _ => [(65 : Fin 256)])
  have h2 := h.2.2 "x86" (by decide)
  exact ⟨h2.2.1, h2.2.2⟩

/-- Measurement helper: concatenated rendering of one line's bytes. -/
def hexConcat : ByteStr → String
  | [] => ""
  | c :: g => byte_hex c ++ hexConcat g

/-- Measurement helper (fuelled): split a byte string into the successive
groups of 16 bytes that the enumerate loop of `binary_dump` places on one
line each.  The fuel only bounds recursion depth; it is at least the
length wherever used. -/
def chunksF : Nat → ByteStr → List ByteStr
  | _, [] => []
  | 0, _ :: _ => []
  | n + 1, c :: rest => (c :: rest.take 15) :: chunksF n (rest.drop 15)

/-- Measurement helper: the 16-byte line groups of a byte string. -/
def chunks16 (bs : ByteStr) : List ByteStr := chunksF bs.length bs

/-- Measurement helper: rendering of a chunk list, one line per chunk,
each line preceded by the newline the loop emits at indices ≡ 0 (mod 16). -/
def chunkRender : List ByteStr → String
  | [] => ""
  | g :: gs => "\n" ++ hexConcat g ++ chunkRender gs

/-- Measurement helper: an uppercase hexadecimal digit character. -/
def isHexUpper (ch : Char) : Bool :=
  if ('0' ≤ ch ∧ ch ≤ '9') ∨ ('A' ≤ ch ∧ ch ≤ 'F') then true else false

theorem hexDigit_upper : ∀ n : Fin 16, isHexUpper (hexDigit n.val) = true := by
  decide

theorem dump_body_line (g : ByteStr) :
    ∀ (i : Nat) (rest : ByteStr), (∀ k, k < g.length → (i + k) % 16 ≠ 0) →
    dump_body i (g ++ rest) = hexConcat g ++ dump_body (i + g.length) rest := by
  induction g with
  | nil =>
    intro i rest _
    show dump_body i rest = "" ++ dump_body (i + 0) rest
    rw [String.empty_append, Nat.add_zero]
  | cons c g ih =>
    intro i rest h
    have h0 : i % 16 ≠ 0 := by
      have := h 0 (by simp)
      simpa using this
    show (if i % 16 = 0 then "\n" else "") ++ byte_hex c ++
        dump_body (i + 1) (g ++ rest) = _
    rw [if_neg h0, String.empty_append]
    rw [ih (i + 1) rest (fun k hk => by
      have := h (k + 1) (by simpa using Nat.succ_lt_succ hk)
      omega)]
    show byte_hex c ++ (hexConcat g ++ dump_body (i + 1 + g.length) rest) =
      (byte_hex c ++ hexConcat g) ++ dump_body (i + (g.length + 1)) rest
    rw [show i + 1 + g.length = i + (g.length + 1) by omega, String.append_assoc]

theorem dump_body_chunksF :
    ∀ (n : Nat) (bs : ByteStr), bs.length ≤ n → ∀ i, i % 16 = 0 →
      dump_body i bs = chunkRender (chunksF n bs) := by
  intro n
  induction n with
  | zero =>
    intro bs hn i _
    have hbs : bs = [] := List.eq_nil_of_length_eq_zero (Nat.le_zero.mp hn)
    subst hbs
    rfl
  | succ n ih =>
    intro bs hn i hi
    match bs with
    | [] => rfl
    | c :: rest =>
      have hsplit : dump_body (i + 1) rest =
          dump_body (i + 1) (rest.take 15 ++ rest.drop 15) := by
        rw [List.take_append_drop]
      show (if i % 16 = 0 then "\n" else "") ++ byte_hex c ++
          dump_body (i + 1) rest =
        chunkRender ((c :: rest.take 15) :: chunksF n (rest.drop 15))
      rw [if_pos hi, hsplit]
      rw [dump_body_line (rest.take 15) (i + 1) (rest.drop 15) (fun k hk => by
        have hk15 : k < 15 := lt_of_lt_of_le hk (by simp)
        omega)]
      have hrec : dump_body (i + 1 + (rest.take 15).length) (rest.drop 15) =
          chunkRender (chunksF n (rest.drop 15)) := by
        by_cases hlong : 15 ≤ rest.length
        · have htk : (rest.take 15).length = 15 := by
            simp [List.length_take, Nat.min_eq_left hlong]
          rw [htk]
          refine ih (rest.drop 15) ?_ (i + 1 + 15) (by omega)
          simp only [List.length_cons] at hn
          simp only [List.length_drop]
          omega
        · have hdrop : rest.drop 15 = [] := List.drop_eq_nil_of_le (by omega)
          rw [hdrop]
          cases n with
          | zero => rfl
          | succ m => rfl
      rw [hrec]
      show "\n" ++ byte_hex c ++ (hexConcat (rest.take 15) ++
          chunkRender (chunksF n (rest.drop 15))) =
        "\n" ++ (byte_hex c ++ hexConcat (rest.take 15)) ++
          chunkRender (chunksF n (rest.drop 15))
      simp [String.append_assoc]

theorem dump_body_chunks (bs : ByteStr) :
    dump_body 0 bs = chunkRender (chunks16 bs) :=
  dump_body_chunksF bs.length bs le_rfl 0 rfl

theorem chunksF_short :
    ∀ (n : Nat) (bs : ByteStr), ∀ g ∈ chunksF n bs, g.length ≤ 16 := by
  intro n
  induction n with
  | zero =>
    intro bs g hg
    match bs with
    | [] => simp [chunksF] at hg
    | _ :: _ => simp [chunksF] at hg
  | succ n ih =>
    intro bs g hg
    match bs with
    | [] => simp [chunksF] at hg
    | c :: rest =>
      have : g = c :: rest.take 15 ∨ g ∈ chunksF n (rest.drop 15) := by
        simpa [chunksF] using hg
      rcases this with rfl | hmem
      · have : (rest.take 15).length ≤ 15 := by simp
        simp only [List.length_cons]
        omega
      · exact ih (rest.drop 15) g hmem

/-- **C6**  Each generated payload header is a single constant byte-array
declaration `constexpr unsigned char init_ld_xz[] = { ... };` whose elements
are the compressed bytes, grouped at most 16 per line, each rendered as a
two-digit uppercase hexadecimal literal; `dump_bin_header` writes one such
header per architecture named `<arch>_binaries.h`, all under the fixed
symbol name `init_ld_xz`. -/
theorem binary_dump_format (lzma_compress : Nat → Nat → ByteStr → ByteStr)
    (preload : String → ByteStr) :
    (∀ src : ByteStr,
      binary_dump (xz lzma_compress) src "init_ld_xz" =
        "constexpr unsigned char init_ld_xz[] = \x7b" ++
          chunkRender (chunks16 (xz lzma_compress src)) ++ "\n\x7d;\n" ∧
      ∀ g ∈ chunks16 (xz lzma_compress src), g.length ≤ 16) ∧
    (∀ c : Fin 256,
      (byte_hex c).data =
        ['0', 'x', hexDigit (c.val / 16), hexDigit (c.val % 16), ','] ∧
      isHexUpper (hexDigit (c.val / 16)) = true ∧
      isHexUpper (hexDigit (c.val % 16)) = true) ∧
    dump_bin_header lzma_compress preload =
      archs.map (fun arch =>
        (arch ++ "_binaries.h",
          binary_dump (xz lzma_compress) (preload arch) "init_ld_xz")) := by
  refine ⟨?_, ?_, rfl⟩
  · intro src
    refine ⟨?_, chunksF_short _ _⟩
    show "constexpr unsigned char " ++ "init_ld_xz" ++ "[] = \x7b" ++
        dump_body 0 (xz lzma_compress src) ++ "\n\x7d;\n" = _
    rw [dump_body_chunks]
    rfl
  · intro c
    have hdiv : c.val / 16 < 16 := by omega
    have hmod : c.val % 16 < 16 := Nat.mod_lt _ (by omega)
    exact ⟨rfl, hexDigit_upper ⟨_, hdiv⟩, hexDigit_upper ⟨_, hmod⟩⟩

/-- Witness for `binary_dump_format`: a 17-byte input yields a full 16-byte
first line and a 1-byte second line, all within the 16-byte bound. -/
theorem binary_dump_format_witness :
    binary_dump (xz (fun _ _ b => b)) (List.replicate 17 (0 : Fin 256))
        "init_ld_xz" =
      "constexpr unsigned char init_ld_xz[] = \x7b" ++
        chunkRender (chunks16 (xz (fun _ _ b => b)
          (List.replicate 17 (0 : Fin 256)))) ++ "\n\x7d;\n" ∧
    List.replicate 16 (0 : Fin 256) ∈
      chunks16 (xz (fun _ _ b => b) (List.replicate 17 (0 : Fin 256))) ∧
    (List.replicate 16 (0 : Fin 256)).length ≤ 16 ∧
    isHexUpper (hexDigit ((255 : Fin 256).val / 16)) = true := by
  have h := binary_dump_format (fun _ _ b => b) (fun _ => [])
  have hmem : List.replicate 16 (0 : Fin 256) ∈
      chunks16 (xz (fun _ _ b => b) (List.replicate 17 (0 : Fin 256))) := by
    decide
  exact ⟨(h.1 (List.replicate 17 0)).1,
    hmem,
    (h.1 (List.replicate 17 0)).2 _ hmem,
    (h.2.1 255).2.1⟩

/-- A file in the modelled filesystem: its content and whether the
read-only attribute is set. -/
structure FsFile where
  content : String
  readOnly : Bool
  deriving DecidableEq

/-- A filesystem: an association list from path strings to files. -/
abbrev FS := List (String × FsFile)

/-- Errors raised by the modelled OS primitives: Python's
`FileNotFoundError`, and the access-denied error Windows raises when
unlinking a read-only file (the quirk build.py's `rm_on_error` handles). -/
inductive OSError where
  | fileNotFound
  | accessDenied
  deriving DecidableEq

def fs_lookup (fs : FS) (p : String) : Option FsFile :=
  (fs.find? (fun e => e.1 == p)).map (·.2)

def fs_remove_entry (fs : FS) (p : String) : FS :=
  fs.filter (fun e => e.1 != p)

def fs_set (fs : FS) (p : String) (f : FsFile) : FS :=
  (p, f) :: fs_remove_entry fs p

/-- `shutil.move`: relocate a file, overwriting any stale file at the
destination; raises when the source does not exist. -/
def shutil_move (fs : FS) (source target : String) : Except OSError FS :=
  match fs_lookup fs source with
  | none => Except.error OSError.fileNotFound
  | some f => Except.ok (fs_set (fs_remove_entry fs source) target f)

/-- `mv` (build.py lines 99-104): `shutil.move` inside a bare
`try/except: pass` — any failure leaves the filesystem unchanged and is
swallowed; the function itself never raises. -/
def mv (fs : FS) (source target : String) : FS :=
  match shutil_move fs source target with
  | Except.ok fs2 => fs2
  | Except.error _ => fs

/-- The fixed artifact-name list `support_targets + ["libinit-ld.so"]`
relocated after every ndk-build invocation (build.py line 240). -/
def ndk_out_names : List String := support_targets ++ ["libinit-ld.so"]

/-- The (source, target) move pairs `run_ndk_build` attempts after an
invocation with the given flag string (build.py lines 239-243): every
artifact name for every architecture, independent of the flags. -/
def run_ndk_build_moves (_flags : String) : List (String × String) :=
  archs.flatMap (fun arch => ndk_out_names.map (fun tgt =>
    ("native/libs/" ++ arch ++ "/" ++ tgt, "native/out/" ++ arch ++ "/" ++ tgt)))

/-- The ndk-build command prefix composed in `run_ndk_build`
(build.py line 234). -/
def run_ndk_build_cmd (flags : String) : String :=
  "NDK_PROJECT_PATH=. NDK_APPLICATION_MK=src/Application.mk " ++ flags

/-- The relocation step of `run_ndk_build` applied to a filesystem. -/
def run_ndk_build_relocate (flags : String) (fs : FS) : FS :=
  (run_ndk_build_moves flags).foldl (fun acc st => mv acc st.1 st.2) fs

/-- **C8**  Relocating an artifact whose source path does not exist is a
silent no-op (`mv` returns the unchanged filesystem instead of raising),
and after an ndk-build invocation the relocation step attempts the full
fixed artifact-name list (all six supported targets plus `libinit-ld.so`)
for every one of the 4 architectures — 28 moves — whatever feature flags
were active; on a filesystem holding none of them, the whole relocation
pass is a silent no-op. -/
theorem mv_relocation_spec (flags flags2 : String) (fs : FS) (s t : String)
    (h : fs_lookup fs s = none) :
    mv fs s t = fs ∧
    run_ndk_build_moves flags = run_ndk_build_moves flags2 ∧
    (run_ndk_build_moves flags).length = 28 ∧
    (∀ arch ∈ archs, ∀ tgt ∈ ndk_out_names,
      ("native/libs/" ++ arch ++ "/" ++ tgt, "native/out/" ++ arch ++ "/" ++ tgt)
        ∈ run_ndk_build_moves flags) ∧
    run_ndk_build_relocate flags [] = [] := by
  have hconc : run_ndk_build_moves flags = run_ndk_build_moves "" := rfl
  have hlen : (run_ndk_build_moves "").length = 28 := by decide
  have hmem : ∀ arch ∈ archs, ∀ tgt ∈ ndk_out_names,
      ("native/libs/" ++ arch ++ "/" ++ tgt, "native/out/" ++ arch ++ "/" ++ tgt)
        ∈ run_ndk_build_moves "" := by decide
  refine ⟨?_, rfl, by rw [hconc]; exact hlen,
    fun arch ha tgt ht => by rw [hconc]; exact hmem arch ha tgt ht, ?_⟩
  · simp [mv, shutil_move, h]
  · show (run_ndk_build_moves flags).foldl (fun acc st => mv acc st.1 st.2) [] = []
    have hnil : ∀ l : List (String × String),
        l.foldl (fun acc st => mv acc st.1 st.2) ([] : FS) = [] := by
      intro l
      induction l with
      | nil => rfl
      | cons a l ih => exact ih
    exact hnil _

/-- Witness for `mv_relocation_spec` at a concrete absent source path. -/
theorem mv_relocation_spec_witness :
    mv [] "native/libs/x86/magisk" "native/out/x86/magisk" = [] ∧
    (run_ndk_build_moves " B_PRELOAD=1").length = 28 := by
  have h := mv_relocation_spec " B_PRELOAD=1" " B_BB=1" []
    "native/libs/x86/magisk" "native/out/x86/magisk" rfl
  exact ⟨h.1, h.2.2.1⟩

/-- `os.chmod(path, stat.S_IWRITE)`: clear the read-only attribute; raises
`FileNotFoundError` on a missing path. -/
def os_chmod_writable (fs : FS) (p : String) : Except OSError FS :=
  match fs_lookup fs p with
  | none => Except.error OSError.fileNotFound
  | some f => Except.ok (fs_set fs p { f with readOnly := false })

/-- `os.remove` / `os.unlink`: raises `FileNotFoundError` on a missing path
and (on Windows) access-denied on a read-only file. -/
def os_remove (fs : FS) (p : String) : Except OSError FS :=
  match fs_lookup fs p with
  | none => Except.error OSError.fileNotFound
  | some f =>
    if f.readOnly then Except.error OSError.accessDenied
    else Except.ok (fs_remove_entry fs p)

/-- `rm` (build.py lines 115-120): `os.remove` with `FileNotFoundError`
caught and ignored; any other error propagates. -/
def rm (fs : FS) (p : String) : Except OSError FS :=
  match os_remove fs p with
  | Except.ok fs2 => Except.ok fs2
  | Except.error OSError.fileNotFound => Except.ok fs
  | Except.error e => Except.error e

/-- `rm_on_error` (build.py lines 123-131), the `shutil.rmtree` error hook:
clear the read-only bit, retry the unlink, and ignore
`FileNotFoundError` from either step. -/
def rm_on_error (fs : FS) (p : String) : Except OSError FS :=
  match os_chmod_writable fs p with
  | Except.error OSError.fileNotFound => Except.ok fs
  | Except.error e => Except.error e
  | Except.ok fs2 =>
    match os_remove fs2 p with
    | Except.ok fs3 => Except.ok fs3
    | Except.error OSError.fileNotFound => Except.ok fs2
    | Except.error e => Except.error e

/-- Whether path `q` lies inside the tree rooted at `path`. -/
def under_tree (path q : String) : Bool :=
  q == path || (path ++ "/").data.isPrefixOf q.data

/-- One deletion inside `shutil.rmtree`: a failing unlink is routed to the
`rm_on_error` hook instead of raising. -/
def rmtree_unlink (fs : FS) (p : String) : Except OSError FS :=
  match os_remove fs p with
  | Except.ok fs2 => Except.ok fs2
  | Except.error _ => rm_on_error fs p

/-- `rm_rf` (build.py lines 133-135): `shutil.rmtree` with
`onerror=rm_on_error`.  All entries under the tree are unlinked through the
hook; listing a missing tree fails and is itself reported to the hook with
the root path. -/
def rm_rf (fs : FS) (path : String) : Except OSError FS :=
  let victims := (fs.map (·.1)).filter (fun q => under_tree path q)
  if victims.isEmpty then rm_on_error fs path
  else victims.foldlM rmtree_unlink fs

/-- Measurement helper: Boolean infix test on character lists. -/
def isInfixB (needle : List Char) : List Char → Bool
  | [] => needle.isEmpty
  | c :: t => needle.isPrefixOf (c :: t) || isInfixB needle t

/-- The glob pattern `native/**/*-rs.*pp` of `cleanup` (build.py line 519). -/
def rs_gen_match (p : String) : Bool :=
  ("native/").data.isPrefixOf p.data &&
  isInfixB ("-rs.").data p.data &&
  ("pp").data.isSuffixOf p.data

/-- The paths matched by the cleanup glob on the current filesystem. -/
def glob_rs_gen (fs : FS) : List String :=
  (fs.map (·.1)).filter rs_gen_match

/-- The filesystem effect of `cleanup` (build.py lines 498-526) for an
already-resolved scope set: the C++ scope removes the three intermediate
output trees; the Rust scope removes the cargo target tree, the two
generated proto files and every glob match; the Java scope removes the two
generated source-override directories.  (The Java scope's external gradle
invocation touches no modelled file and is not part of the filesystem
effect.) -/
def cleanup_fs (scopes : Finset String) (fs : FS) : Except OSError FS := do
  let fs ←
    if "cpp" ∈ scopes then do
      let fs1 ← rm_rf fs "native/libs"
      let fs2 ← rm_rf fs1 "native/obj"
      rm_rf fs2 "native/out"
    else pure fs
  let fs ←
    if "rust" ∈ scopes then do
      let fs1 ← rm_rf fs "native/src/target"
      let fs2 ← rm fs1 "native/src/boot/proto/mod.rs"
      let fs3 ← rm fs2 "native/src/boot/proto/update_metadata.rs"
      (glob_rs_gen fs3).foldlM rm fs3
    else pure fs
  let fs ←
    if "java" ∈ scopes then do
      let fs1 ← rm_rf fs "app/src/debug"
      rm_rf fs1 "app/src/release"
    else pure fs
  pure fs

theorem fs_lookup_none_of_no_tree (p : String) :
    ∀ fs : FS, ((fs.map (·.1)).filter (fun q => under_tree p q)).isEmpty = true →
      fs_lookup fs p = none := by
  intro fs
  induction fs with
  | nil => intro _; rfl
  | cons e rest ih =>
    intro h
    simp only [List.map_cons, List.filter_cons] at h
    cases hu : under_tree p e.1 with
    | true =>
      rw [hu] at h
      simp at h
    | false =>
      have hne : (e.1 == p) = false := by
        unfold under_tree at hu
        exact (Bool.or_eq_false_iff.mp hu).1
      rw [hu] at h
      simp only [Bool.false_eq_true, if_false] at h
      unfold fs_lookup
      rw [List.find?_cons_of_neg _ (by simp [hne])]
      exact ih h

theorem fs_lookup_set (fs : FS) (p : String) (f : FsFile) :
    fs_lookup (fs_set fs p f) p = some f := by
  unfold fs_lookup fs_set
  rw [List.find?_cons_of_pos _ (by simp)]
  rfl

theorem fs_lookup_remove (fs : FS) (p : String) :
    fs_lookup (fs_remove_entry fs p) p = none := by
  unfold fs_lookup fs_remove_entry
  induction fs with
  | nil => rfl
  | cons e rest ih =>
    simp only [List.filter_cons]
    cases he : (e.1 != p) with
    | true =>
      simp only [if_true]
      have hne : (e.1 == p) = false := by
        simpa using he
      rw [List.find?_cons_of_neg _ (by simp [hne])]
      exact ih
    | false =>
      simp only [Bool.false_eq_true, if_false]
      exact ih

/-- **C9**  Deleting a non-existent file is a silent no-op; removing a whole
tree that has no entries is a silent no-op as well; a read-only file is
removed by first clearing the read-only attribute and retrying, with no
error; and running the full cleanup twice in a row on an already-clean
tree succeeds both times with no error. -/
theorem rm_cleanup_spec (fs : FS) (p : String) :
    (fs_lookup fs p = none → rm fs p = Except.ok fs) ∧
    (((fs.map (·.1)).filter (fun q => under_tree p q)).isEmpty = true →
      rm_rf fs p = Except.ok fs) ∧
    (∀ f, fs_lookup fs p = some f → f.readOnly = true →
      rm_on_error fs p =
        Except.ok (fs_remove_entry (fs_set fs p { f with readOnly := false }) p) ∧
      fs_lookup (fs_remove_entry (fs_set fs p { f with readOnly := false }) p) p
        = none) ∧
    (cleanup_fs (cleanup_resolve ∅) [] = Except.ok [] ∧
      (cleanup_fs (cleanup_resolve ∅) []).bind (cleanup_fs (cleanup_resolve ∅))
        = Except.ok []) := by
  refine ⟨?_, ?_, ?_, ?_, ?_⟩
  · intro h
    simp [rm, os_remove, h]
  · intro h
    have hnone : fs_lookup fs p = none := fs_lookup_none_of_no_tree p fs h
    unfold rm_rf
    rw [if_pos h]
    simp [rm_on_error, os_chmod_writable, hnone]
  · intro f hf _
    constructor
    · have hchmod : os_chmod_writable fs p =
          Except.ok (fs_set fs p { f with readOnly := false }) := by
        simp [os_chmod_writable, hf]
      have hrem : os_remove (fs_set fs p { f with readOnly := false }) p =
          Except.ok (fs_remove_entry (fs_set fs p { f with readOnly := false }) p) := by
        simp [os_remove, fs_lookup_set]
      unfold rm_on_error
      rw [hchmod]
      show (match os_remove (fs_set fs p { f with readOnly := false }) p with
        | Except.ok fs3 => Except.ok fs3
        | Except.error OSError.fileNotFound =>
            Except.ok (fs_set fs p { f with readOnly := false })
        | Except.error e => Except.error e) =
        Except.ok (fs_remove_entry (fs_set fs p { f with readOnly := false }) p)
      rw [hrem]
    · exact fs_lookup_remove _ p
  · rfl
  · rfl

/-- Witness for `rm_cleanup_spec`: a missing path and a concrete read-only
file. -/
theorem rm_cleanup_spec_witness :
    rm [] "native/src/boot/proto/mod.rs" = Except.ok [] ∧
    rm_rf [] "native/libs" = Except.ok [] ∧
    rm_on_error [("a", ⟨"x", true⟩)] "a" = Except.ok [] := by
  have h1 := rm_cleanup_spec [] "native/src/boot/proto/mod.rs"
  have h2 := rm_cleanup_spec [] "native/libs"
  have h3 := rm_cleanup_spec [("a", ⟨"x", true⟩)] "a"
  refine ⟨h1.1 rfl, h2.2.1 rfl, ?_⟩
  have := (h3.2.2.1 ⟨"x", true⟩ rfl rfl).1
  simpa [fs_set, fs_remove_entry] using this

end Build
